import Mathlib

/-!
Shallow embedding of `src/WorkoutBuilder.js` (Garmin Workout Builder).

The embedding covers the pure conversion core: CSV line tokenizing
(`parseCSVLine`), zone-name sniffing (`getZoneNumberFromName`,
`buildTargetForStep`), and the per-row workout construction inside
`createWorkoutsFromCSVText` (header/sport-mode detection, step building
with id/order counters, duration/distance estimation, document assembly).
The browser glue (file picker, CSRF token, HTTP POST, console output) is
outside the core and not modelled; the pipeline instead returns the list
of assembled documents, or an error for the one uncaught failure mode
(indexing past the end of the line list at the sport-mode-marker check).

JavaScript numbers are modelled as `Int` (all arithmetic in the core is
integer-valued except the distance estimate, which multiplies by the
speed constants 2.94 / 6.94 and is modelled over `ℚ`). JS strings are
Lean `String`s; `String.trim` / `String.toLower` / `Char.isWhitespace`
stand in for their ASCII-compatible JS counterparts.
-/

namespace GarminWB

/-- JS `\w` word character class: `[A-Za-z0-9_]`. -/
def isWordChar (c : Char) : Bool := c.isAlphanum || c = '_'

/-- JS `String.prototype.trim`: drop leading and trailing whitespace.
(Implemented over the character list so that it evaluates by kernel
reduction; `String.trim` of core does not.) -/
def strTrim (s : String) : String :=
  String.mk (((s.data.dropWhile Char.isWhitespace).reverse.dropWhile Char.isWhitespace).reverse)

/-- JS `String.prototype.toLowerCase` (ASCII portion). -/
def strToLower (s : String) : String := String.mk (s.data.map Char.toLower)

/-- `text.split('\n')` over the character list. -/
def splitLinesAux : List Char → List Char → List String
  | [], cur => [String.mk cur]
  | '\n' :: rest, cur => String.mk cur :: splitLinesAux rest []
  | c :: rest, cur => splitLinesAux rest (cur ++ [c])

/-- Value of a decimal digit character. -/
def digitVal (c : Char) : Nat := c.toNat - '0'.toNat

/-- JS `String.prototype.includes`: substring containment. -/
def strIncludes (hay sub : String) : Bool :=
  (List.range (hay.data.length + 1)).any (fun p => sub.data.isPrefixOf (hay.data.drop p))

/-- JS `parseInt(s) || 0`: skip leading whitespace, optional sign, read the
leading run of decimal digits; no digits (`NaN`) falls back to `0`.
(The `0x` radix prefix of `parseInt` is not modelled; inputs in scope are
decimal.) -/
def parseIntOrZero (s : String) : Int :=
  let t := s.data.dropWhile Char.isWhitespace
  let sign : Int := match t with
    | '-' :: _ => -1
    | _ => 1
  let t2 := match t with
    | '-' :: r => r
    | '+' :: r => r
    | r => r
  let ds := t2.takeWhile Char.isDigit
  if ds.isEmpty then 0 else sign * (ds.foldl (fun a c => a * 10 + (digitVal c : Int)) 0)

/-- `cell.slice(1,-1).replace(/""/g,'"')` step of the tokenizer: collapse
doubled quotes. -/
def collapseQuotes : List Char → List Char
  | '"' :: '"' :: rest => '"' :: collapseQuotes rest
  | c :: rest => c :: collapseQuotes rest
  | [] => []

/-- Final per-cell pass of `parseCSVLine`: if the (already trimmed) cell is
wrapped in quotes, strip them and collapse doubled internal quotes. -/
def unquoteCell (cell : String) : String :=
  let cs := cell.data
  match cs with
  | c :: _ =>
    if c = '"' ∧ cs.getLast? = some '"' then
      String.mk (collapseQuotes (cs.drop 1).dropLast)
    else cell
  | [] => cell

/-- Character loop of `parseCSVLine` (src lines 15–34): scans the line,
toggling quote mode, emitting a trimmed cell at each unquoted `;`. -/
def parseCSVLineLoop : List Char → Bool → List Char → List String → List String
  | [], _, cur, res => res ++ [strTrim (String.mk cur)]
  | '"' :: '"' :: rest, true, cur, res => parseCSVLineLoop rest true (cur ++ ['"']) res
  | '"' :: rest, inQ, cur, res => parseCSVLineLoop rest (!inQ) cur res
  | ';' :: rest, inQ, cur, res =>
    if inQ then parseCSVLineLoop rest inQ (cur ++ [';']) res
    else parseCSVLineLoop rest inQ [] (res ++ [strTrim (String.mk cur)])
  | c :: rest, inQ, cur, res => parseCSVLineLoop rest inQ (cur ++ [c]) res

/-- `parseCSVLine` (src lines 13–41): split one line on unquoted `;`,
trim each cell, then strip wrapping quotes and collapse doubled quotes. -/
def parseCSVLine (line : String) : List String :=
  (parseCSVLineLoop line.data false [] []).map unquoteCell

/-- Right word boundary after the matched digit: end of string or a
non-word character. -/
def rightBoundaryOk (post : List Char) : Bool :=
  match post with
  | [] => true
  | b :: _ => !isWordChar b

/-- Left word boundary before position `q` (the keyword starts with the
word character `z`, so the boundary holds iff `q = 0` or the previous
character is a non-word character). -/
def leftBoundaryOk (s : List Char) (q : Nat) : Bool :=
  match (s.take q).getLast? with
  | none => true
  | some a => !isWordChar a

/-- Head of the whitespace-stripped remainder must be a digit `1`–`9`
(code points 49–57) followed by a word boundary. -/
def digitBoundary : List Char → Option Nat
  | c :: post =>
    if ('1'.toNat ≤ c.toNat ∧ c.toNat ≤ '9'.toNat) ∧ rightBoundaryOk post
    then some (digitVal c) else none
  | [] => none

/-- After the keyword `z`/`zone`: greedily skip whitespace (`\s*`), then
require a digit `1`–`9` followed by a word boundary. Returns the digit. -/
def matchAfterKw (rest : List Char) : Option Nat :=
  digitBoundary (rest.dropWhile Char.isWhitespace)

/-- The `one` continuation of the `zone` keyword alternative. -/
def zoneWord : List Char → Option Nat
  | c1 :: c2 :: c3 :: r2 =>
    if c1 = 'o' ∧ c2 = 'n' ∧ c3 = 'e' then matchAfterKw r2 else none
  | _ => none

/-- Continuation after the leading `z` of the keyword: the `z`
alternative is tried before `zone`, as the regex engine does. -/
def zoneTail (r : List Char) : Option Nat :=
  match matchAfterKw r with
  | some d => some d
  | none => zoneWord r

/-- The keyword must start with `z` at the current position. -/
def afterBoundary : List Char → Option Nat
  | c0 :: r => if c0 = 'z' then zoneTail r else none
  | [] => none

/-- One attempt of the regex `\b(?:z|zone)\s*([1-9])\b` at position `q`
of the lowercased character list. -/
def matchZoneAt (s : List Char) (q : Nat) : Option Nat :=
  if leftBoundaryOk s q then afterBoundary (s.drop q) else none

/-- Scan positions `p, p+1, ...` (at most `fuel` of them) for the first
successful match, as regex search does (leftmost match wins). -/
def scanZoneFrom (s : List Char) (p : Nat) : Nat → Option Nat
  | 0 => none
  | fuel + 1 =>
    match matchZoneAt s p with
    | some d => some d
    | none => scanZoneFrom s (p + 1) fuel

/-- `getZoneNumberFromName` (src lines 45–49): match
`/\b(?:z|zone)\s*([1-9])\b/i` against the name; empty (falsy) name gives
no zone. Matching is done on the lowercased string. -/
def getZoneNumberFromName (name : String) : Option Nat :=
  if name = "" then none
  else scanZoneFrom (strToLower name).data 0 (strToLower name).data.length

/-- `targetType` object literal fields. -/
structure TargetType where
  workoutTargetTypeId : Nat
  workoutTargetTypeKey : String
  displayOrder : Nat
deriving DecidableEq, Repr

def noTargetType : TargetType := ⟨1, "no.target", 1⟩

def powerZoneType : TargetType := ⟨2, "power.zone", 2⟩

/-- Result of `buildTargetForStep`: a target type plus the optional zone
number (the JS object additionally carries always-`null`
`targetValueOne/Two/Unit` fields, elided here). -/
structure Target where
  targetType : TargetType
  zoneNumber : Option Nat
deriving DecidableEq, Repr

/-- `buildTargetForStep` (src lines 51–72): run mode never targets;
bike mode targets the power zone sniffed from the name, if any. -/
def buildTargetForStep (name : String) (isBike : Bool) : Target :=
  if !isBike then ⟨noTargetType, none⟩
  else
    match getZoneNumberFromName name with
    | some z => ⟨powerZoneType, some z⟩
    | none => ⟨noTargetType, none⟩

/-- `stepType` object literal fields. -/
structure StepType where
  stepTypeId : Nat
  stepTypeKey : String
  displayOrder : Nat
deriving DecidableEq, Repr

/-- `endCondition` object literal fields. -/
structure EndCondition where
  conditionTypeId : Nat
  conditionTypeKey : String
  displayOrder : Nat
  displayable : Bool
deriving DecidableEq, Repr

def timeCondition : EndCondition := ⟨2, "time", 2, true⟩

/-- Lap-button condition as built for the recovery child (src line 217). -/
def lapButtonCondition : EndCondition := ⟨1, "lap.button", 1, true⟩

/-- Lap-button condition as built for the cooldown step (src line 277;
note the source writes `displayOrder: 2` there). -/
def lapButtonCooldownCondition : EndCondition := ⟨1, "lap.button", 2, true⟩

def iterationsCondition : EndCondition := ⟨7, "iterations", 7, false⟩

/-- An `ExecutableStepDTO` object. `childStepId` is `none` where the JS
object has no such field and `some` where it is set (repeat-group
children). `stepAudioNote` is always `null` in the source and elided. -/
structure ExecStep where
  stepId : Nat
  stepOrder : Nat
  stepType : StepType
  endCondition : EndCondition
  endConditionValue : Int
  description : String
  childStepId : Option Nat
  target : Target
deriving DecidableEq, Repr

/-- A `RepeatGroupDTO` object. -/
structure RepeatGroup where
  stepId : Nat
  stepOrder : Nat
  numberOfIterations : Int
  smartRepeat : Bool
  childStepId : Option Nat
  workoutSteps : List ExecStep
  endCondition : EndCondition
  skipLastRestStep : Bool
deriving DecidableEq, Repr

/-- A top-level entry of the workout's step list. -/
inductive StepNode where
  | exec (e : ExecStep)
  | group (g : RepeatGroup)
deriving DecidableEq, Repr

/-- The assembled workout document (src lines 309–331). The source wraps
the steps in a single `workoutSegments` entry with `segmentOrder: 1`;
the step list is embedded directly here. The constant `estimateType`,
`estimatedDistanceUnit`, `subSportType` and `isWheelchair` fields are
elided. -/
structure WorkoutDocument where
  sportTypeId : Nat
  sportTypeKey : String
  workoutName : String
  avgTrainingSpeed : ℚ
  estimatedDurationInSecs : Int
  estimatedDistanceInMeters : ℚ
  workoutSteps : List StepNode
deriving DecidableEq, Repr, Inhabited

/-- `DEFAULT_SPEED_RUN_MPS = 2.94` (src line 77), over `ℚ`. -/
def DEFAULT_SPEED_RUN_MPS : ℚ := 294 / 100

/-- `DEFAULT_SPEED_BIKE_MPS = 6.94` (src line 78), over `ℚ`. -/
def DEFAULT_SPEED_BIKE_MPS : ℚ := 694 / 100

/-- Mutable per-row builder state: the `stepId` / `stepOrder` counters,
the accumulated step list and `totalPlannedSecs`. -/
structure BuildState where
  stepId : Nat
  stepOrder : Nat
  steps : List StepNode
  total : Int
deriving DecidableEq, Repr

/-- Warmup step (src lines 124–140). -/
def mkWarmupStep (isBike : Bool) (warmupSec : Int) (sid sord : Nat) : ExecStep :=
  { stepId := sid, stepOrder := sord, stepType := ⟨1, "warmup", 1⟩,
    endCondition := timeCondition, endConditionValue := warmupSec,
    description := "Z1", childStepId := none,
    target := buildTargetForStep "Z1" isBike }

/-- Interval child of a repeat group (src lines 168–187); its
`childStepId` is set to its own `stepId` (src line 186). -/
def mkIntervalChild (isBike : Bool) (name : String) (durationSec : Int) (sid sord : Nat) :
    ExecStep :=
  { stepId := sid, stepOrder := sord, stepType := ⟨3, "interval", 3⟩,
    endCondition := timeCondition, endConditionValue := durationSec,
    description := name, childStepId := some sid,
    target := buildTargetForStep name isBike }

/-- Recovery child of a repeat group (src lines 190–219): always named
"Z1"; time-conditioned on `pauseSec` when positive, else lap-button. -/
def mkRecoveryChild (isBike : Bool) (pauseSec : Int) (intervalId : Nat) (sid sord : Nat) :
    ExecStep :=
  { stepId := sid, stepOrder := sord, stepType := ⟨4, "recovery", 4⟩,
    endCondition := if pauseSec > 0 then timeCondition else lapButtonCondition,
    endConditionValue := if pauseSec > 0 then pauseSec else 0,
    description := "Z1", childStepId := some intervalId,
    target := buildTargetForStep "Z1" isBike }

/-- Steady (non-repeat) segment step (src lines 248–264). -/
def mkSteadyStep (isBike : Bool) (name : String) (durationSec : Int) (sid sord : Nat) :
    ExecStep :=
  { stepId := sid, stepOrder := sord, stepType := ⟨3, "interval", 3⟩,
    endCondition := timeCondition, endConditionValue := durationSec,
    description := name, childStepId := none,
    target := buildTargetForStep name isBike }

/-- Cooldown step (src lines 271–297): time-conditioned on `cooldownSec`
when positive, else lap-button. -/
def mkCooldownStep (isBike : Bool) (cooldownSec : Int) (sid sord : Nat) : ExecStep :=
  { stepId := sid, stepOrder := sord, stepType := ⟨2, "cooldown", 2⟩,
    endCondition := if cooldownSec > 0 then timeCondition else lapButtonCooldownCondition,
    endConditionValue := if cooldownSec > 0 then cooldownSec else 0,
    description := "Z1", childStepId := none,
    target := buildTargetForStep "Z1" isBike }

/-- The `RepeatGroupDTO` built for a segment with `repeats > 0`
(src lines 159–234): the group's own id/order are the counter values
allocated before its children's; the children are the interval child
then the recovery child; `childStepId` is `childSteps[0]?.stepId`. -/
def mkRepeatGroup (isBike : Bool) (name : String) (durationSec pauseSec repeats : Int)
    (sid sord : Nat) : RepeatGroup :=
  let c1 := mkIntervalChild isBike name durationSec (sid + 1) (sord + 1)
  let c2 := mkRecoveryChild isBike pauseSec c1.stepId (sid + 2) (sord + 2)
  { stepId := sid, stepOrder := sord,
    numberOfIterations := repeats, smartRepeat := false,
    childStepId := ([c1, c2].head?).map ExecStep.stepId,
    workoutSteps := [c1, c2], endCondition := iterationsCondition,
    skipLastRestStep := true }

/-- One iteration of the segment loop (src lines 147–269) for segment
index `s`: skip an incomplete segment block; otherwise emit either a
repeat group (repeat id/order allocated before its two children's) or a
steady step, advancing the counters and the planned-seconds total. -/
def processSegment (isBike : Bool) (cols : List String) (st : BuildState) (s : Nat) :
    BuildState :=
  let base := 4 + s * 4
  if base + 3 ≥ cols.length then st
  else
    let rawName := cols.getD base ""
    let name := if rawName = "" then "Step" ++ toString (s + 1) else rawName
    let durationSec := parseIntOrZero (cols.getD (base + 1) "")
    let pauseSec := parseIntOrZero (cols.getD (base + 2) "")
    let repeats := parseIntOrZero (cols.getD (base + 3) "")
    if repeats > 0 then
      { stepId := st.stepId + 3, stepOrder := st.stepOrder + 3,
        steps := st.steps ++
          [StepNode.group (mkRepeatGroup isBike name durationSec pauseSec repeats st.stepId st.stepOrder)],
        total := st.total + repeats * (durationSec + (if pauseSec > 0 then pauseSec else 0)) }
    else
      { stepId := st.stepId + 1, stepOrder := st.stepOrder + 1,
        steps := st.steps ++ [StepNode.exec (mkSteadyStep isBike name durationSec st.stepId st.stepOrder)],
        total := st.total + durationSec }

/-- Warmup emission plus the segment loop (src lines 110–269): counters
start at 1; the warmup step is emitted only for positive `warmupSec`. -/
def segmentPhase (isBike : Bool) (cols : List String) : BuildState :=
  let warmupSec := parseIntOrZero (cols.getD 2 "")
  let st0 : BuildState := ⟨1, 1, [], 0⟩
  let st1 : BuildState :=
    if warmupSec > 0 then
      ⟨2, 2, [StepNode.exec (mkWarmupStep isBike warmupSec 1 1)], warmupSec⟩
    else st0
  let numSegments := (parseIntOrZero (cols.getD 1 "")).toNat
  (List.range numSegments).foldl (processSegment isBike cols) st1

/-- One data row (src lines 99–331, network part excluded): rows with
fewer than 4 columns are skipped; otherwise warmup/segments/cooldown are
built and the document assembled. `i` is the 0-based line index, used
only for the fallback workout name. The cooldown seconds are added to
the planned total unconditionally (src line 299). -/
def buildRow (isBike : Bool) (i : Nat) (cols : List String) : Option WorkoutDocument :=
  if cols.length < 4 then none
  else
    let rawName := cols.getD 0 ""
    let workoutName := if rawName = "" then "Workout-" ++ toString i else rawName
    let cooldownSec := parseIntOrZero (cols.getD 3 "")
    let st := segmentPhase isBike cols
    let steps := st.steps ++ [StepNode.exec (mkCooldownStep isBike cooldownSec st.stepId st.stepOrder)]
    let total := st.total + cooldownSec
    let speed : ℚ := if isBike then DEFAULT_SPEED_BIKE_MPS else DEFAULT_SPEED_RUN_MPS
    some
      { sportTypeId := if isBike then 2 else 1,
        sportTypeKey := if isBike then "cycling" else "running",
        workoutName := workoutName, avgTrainingSpeed := speed,
        estimatedDurationInSecs := total,
        estimatedDistanceInMeters := (total : ℚ) * speed,
        workoutSteps := steps }

/-- `csvText.split(/\r?\n/).map(l => l.trim()).filter(l => l.length > 0)`
(src line 80). Splitting on `\n` composed with `trim` is equivalent to
splitting on `\r?\n`, since `trim` removes a trailing `\r`. -/
def cleanLines (csvText : String) : List String :=
  ((splitLinesAux csvText.data []).map strTrim).filter (fun l => l.length > 0)

/-- The data-row loop (src lines 97–376): each remaining `(index, line)`
pair is tokenized and built independently; skipped rows contribute
nothing. -/
def processRowsEnum (isBike : Bool) (rows : List (Nat × String)) : List WorkoutDocument :=
  rows.filterMap (fun p => buildRow isBike p.1 (parseCSVLine p.2))

/-- Header detection (src line 88): the first line's first (lowercased)
field contains "name" and some field equals "abschnitte". -/
def isHeaderLine (l : String) : Bool :=
  let fc := (parseCSVLine l).map strToLower
  strIncludes (fc.getD 0 "") "name" && fc.contains "abschnitte"

/-- Sport-mode-marker detection (src line 91): the line's first
(lowercased) field contains "bike". -/
def isBikeMarkerLine (l : String) : Bool :=
  strIncludes (((parseCSVLine l).map strToLower).getD 0 "") "bike"

/-- `createWorkoutsFromCSVText` (src lines 75–377), with the network /
CSRF collaborators excluded: returns the list of assembled documents.
The sport-mode check `parseCSVLine(lines[startIndex])` (src line 90) has
no bounds check; when the header was the only line, `lines[startIndex]`
is `undefined` and the JS throws outside of any per-row `try`, modelled
by the `Except.error` branch. -/
def createWorkoutsFromCSVText (csvText : String) : Except String (List WorkoutDocument) :=
  let lines := cleanLines csvText
  match lines with
  | [] => Except.ok []
  | l0 :: _ =>
    let startIndex := if isHeaderLine l0 then 1 else 0
    match lines[startIndex]? with
    | none => Except.error "TypeError: undefined line at startIndex"
    | some l =>
      let isBike := isBikeMarkerLine l
      let startIndex2 := if isBike then startIndex + 1 else startIndex
      Except.ok (processRowsEnum isBike (lines.enum.drop startIndex2))

/-- Depth-first (pre-order) listing of the step ids of a step tree: a
repeat group contributes its own id, then its children's ids. -/
def idsOf : List StepNode → List Nat
  | [] => []
  | StepNode.exec e :: r => e.stepId :: idsOf r
  | StepNode.group g :: r => g.stepId :: (g.workoutSteps.map ExecStep.stepId ++ idsOf r)

/-- Depth-first (pre-order) listing of the step orders of a step tree. -/
def ordersOf : List StepNode → List Nat
  | [] => []
  | StepNode.exec e :: r => e.stepOrder :: ordersOf r
  | StepNode.group g :: r => g.stepOrder :: (g.workoutSteps.map ExecStep.stepOrder ++ ordersOf r)

/-- Number of steps in the whole tree (repeat-group children included)
whose step-type key is "cooldown". -/
def cooldownCount : List StepNode → Nat
  | [] => 0
  | StepNode.exec e :: r =>
    (if e.stepType.stepTypeKey = "cooldown" then 1 else 0) + cooldownCount r
  | StepNode.group g :: r =>
    g.workoutSteps.countP (fun e => e.stepType.stepTypeKey = "cooldown") + cooldownCount r

theorem idsOf_append (a b : List StepNode) : idsOf (a ++ b) = idsOf a ++ idsOf b := by
  induction a with
  | nil => simp [idsOf]
  | cons x r ih => cases x <;> simp [idsOf, ih]

theorem ordersOf_append (a b : List StepNode) :
    ordersOf (a ++ b) = ordersOf a ++ ordersOf b := by
  induction a with
  | nil => simp [ordersOf]
  | cons x r ih => cases x <;> simp [ordersOf, ih]

theorem cooldownCount_append (a b : List StepNode) :
    cooldownCount (a ++ b) = cooldownCount a + cooldownCount b := by
  induction a with
  | nil => simp [cooldownCount]
  | cons x r ih => cases x <;> simp [cooldownCount, ih] <;> omega

/-- The claim's per-segment contribution to the planned seconds: `0` for
an incomplete segment block, `repeats × (duration + effectivePause)` for
`repeats > 0`, else the bare duration. -/
def segContribution (cols : List String) (s : Nat) : Int :=
  let base := 4 + s * 4
  if base + 3 ≥ cols.length then 0
  else
    let durationSec := parseIntOrZero (cols.getD (base + 1) "")
    let pauseSec := parseIntOrZero (cols.getD (base + 2) "")
    let repeats := parseIntOrZero (cols.getD (base + 3) "")
    if repeats > 0 then repeats * (durationSec + (if pauseSec > 0 then pauseSec else 0))
    else durationSec

theorem range'_three (s : Nat) : List.range' s 3 = [s, s + 1, s + 2] := by
  simp [List.range']

/-- One segment-loop iteration appends `k ∈ {0, 1, 3}` steps whose ids
and orders continue the counters contiguously, adds no cooldown step,
and adds exactly the claimed contribution to the total. -/
theorem processSegment_shape (isBike : Bool) (cols : List String) (st : BuildState) (s : Nat) :
    ∃ k, (k = 0 ∨ k = 1 ∨ k = 3) ∧
      (processSegment isBike cols st s).stepId = st.stepId + k ∧
      (processSegment isBike cols st s).stepOrder = st.stepOrder + k ∧
      idsOf (processSegment isBike cols st s).steps = idsOf st.steps ++ List.range' st.stepId k ∧
      ordersOf (processSegment isBike cols st s).steps
        = ordersOf st.steps ++ List.range' st.stepOrder k ∧
      cooldownCount (processSegment isBike cols st s).steps = cooldownCount st.steps ∧
      (processSegment isBike cols st s).total = st.total + segContribution cols s := by
  unfold processSegment segContribution
  by_cases hlen : 4 + s * 4 + 3 ≥ cols.length
  · exact ⟨0, by simp [hlen]⟩
  · by_cases hrep : 0 < parseIntOrZero ((cols[4 + s * 4 + 3]?).getD "")
    · refine ⟨3, by tauto, ?_, ?_, ?_, ?_, ?_, ?_⟩ <;>
        simp [hlen, hrep, idsOf_append, ordersOf_append, cooldownCount_append, idsOf,
          ordersOf, cooldownCount, mkRepeatGroup, mkIntervalChild, mkRecoveryChild,
          range'_three, List.countP_cons]
    · refine ⟨1, by tauto, ?_, ?_, ?_, ?_, ?_, ?_⟩ <;>
        simp [hlen, hrep, idsOf_append, ordersOf_append, cooldownCount_append, idsOf,
          ordersOf, cooldownCount, mkSteadyStep, List.range'_one]

/-- Counter/listing invariant of the builder state: after emitting `n`
steps, both counters stand at `n + 1` and the depth-first id and order
listings are exactly `1, …, n`. -/
def StateInv (st : BuildState) : Prop :=
  ∃ n, st.stepId = n + 1 ∧ st.stepOrder = n + 1 ∧
    idsOf st.steps = List.range' 1 n ∧ ordersOf st.steps = List.range' 1 n

theorem range'_snoc (s n : Nat) : List.range' s n ++ [s + n] = List.range' s (n + 1) := by
  have h := List.range'_append s n 1 1
  simpa [Nat.add_comm] using h

theorem range'_glue (s m k : Nat) :
    List.range' s m ++ List.range' (s + m) k = List.range' s (m + k) := by
  have h := List.range'_append s m k 1
  simpa [Nat.add_comm] using h

theorem processSegment_inv (isBike : Bool) (cols : List String) (st : BuildState) (s : Nat)
    (h : StateInv st) : StateInv (processSegment isBike cols st s) := by
  obtain ⟨n, h1, h2, h3, h4⟩ := h
  obtain ⟨k, _, g1, g2, g3, g4, -, -⟩ := processSegment_shape isBike cols st s
  exact ⟨n + k, by omega, by omega,
    by rw [g3, h3, h1]; simpa [Nat.add_comm] using range'_glue 1 n k,
    by rw [g4, h4, h2]; simpa [Nat.add_comm] using range'_glue 1 n k⟩

theorem segLoop_inv (isBike : Bool) (cols : List String) :
    ∀ (l : List Nat) (st : BuildState), StateInv st →
      StateInv (l.foldl (processSegment isBike cols) st) := by
  intro l
  induction l with
  | nil => intro st h; simpa using h
  | cons x r ih =>
    intro st h
    exact ih _ (processSegment_inv isBike cols st x h)

theorem segLoop_total (isBike : Bool) (cols : List String) :
    ∀ (l : List Nat) (st : BuildState),
      (l.foldl (processSegment isBike cols) st).total
        = st.total + (l.map (segContribution cols)).sum := by
  intro l
  induction l with
  | nil => intro st; simp
  | cons x r ih =>
    intro st
    obtain ⟨k, -, -, -, -, -, -, g7⟩ := processSegment_shape isBike cols st x
    simp only [List.foldl_cons, List.map_cons, List.sum_cons]
    rw [ih, g7]
    ring

theorem segLoop_cooldownCount (isBike : Bool) (cols : List String) :
    ∀ (l : List Nat) (st : BuildState),
      cooldownCount (l.foldl (processSegment isBike cols) st).steps
        = cooldownCount st.steps := by
  intro l
  induction l with
  | nil => intro st; simp
  | cons x r ih =>
    intro st
    obtain ⟨k, -, -, -, -, -, g6, -⟩ := processSegment_shape isBike cols st x
    rw [List.foldl_cons, ih, g6]

theorem segmentPhase_inv (isBike : Bool) (cols : List String) :
    StateInv (segmentPhase isBike cols) := by
  unfold segmentPhase
  apply segLoop_inv
  by_cases hw : 0 < parseIntOrZero ((cols[2]?).getD "")
  · exact ⟨1, by simp [hw], by simp [hw], by simp [hw, idsOf, mkWarmupStep, List.range'_one],
      by simp [hw, ordersOf, mkWarmupStep, List.range'_one]⟩
  · exact ⟨0, by simp [hw], by simp [hw], by simp [hw, idsOf], by simp [hw, ordersOf]⟩

theorem segmentPhase_cooldownCount (isBike : Bool) (cols : List String) :
    cooldownCount (segmentPhase isBike cols).steps = 0 := by
  unfold segmentPhase
  rw [segLoop_cooldownCount]
  by_cases hw : 0 < parseIntOrZero ((cols[2]?).getD "") <;>
    simp [hw, cooldownCount, mkWarmupStep]

theorem segmentPhase_total (isBike : Bool) (cols : List String) :
    (segmentPhase isBike cols).total
      = (if 0 < parseIntOrZero (cols.getD 2 "") then parseIntOrZero (cols.getD 2 "") else 0)
        + ((List.range (parseIntOrZero (cols.getD 1 "")).toNat).map (segContribution cols)).sum := by
  unfold segmentPhase
  rw [segLoop_total]
  by_cases hw : 0 < parseIntOrZero ((cols[2]?).getD "") <;> simp [hw, List.getD]

/-- `buildRow` structure: on success the step list is the segment-phase
steps followed by exactly the cooldown step, with the total increased by
`cooldownSec` unconditionally. -/
theorem buildRow_eq (isBike : Bool) (i : Nat) (cols : List String)
    (h : ¬ cols.length < 4) :
    buildRow isBike i cols = some
      { sportTypeId := if isBike then 2 else 1,
        sportTypeKey := if isBike then "cycling" else "running",
        workoutName := if cols.getD 0 "" = "" then "Workout-" ++ toString i else cols.getD 0 "",
        avgTrainingSpeed := if isBike then DEFAULT_SPEED_BIKE_MPS else DEFAULT_SPEED_RUN_MPS,
        estimatedDurationInSecs := (segmentPhase isBike cols).total + parseIntOrZero (cols.getD 3 ""),
        estimatedDistanceInMeters :=
          (((segmentPhase isBike cols).total + parseIntOrZero (cols.getD 3 "") : Int) : ℚ)
            * (if isBike then DEFAULT_SPEED_BIKE_MPS else DEFAULT_SPEED_RUN_MPS),
        workoutSteps := (segmentPhase isBike cols).steps ++
          [StepNode.exec (mkCooldownStep isBike (parseIntOrZero (cols.getD 3 ""))
            (segmentPhase isBike cols).stepId (segmentPhase isBike cols).stepOrder)] } := by
  unfold buildRow
  simp [h]

theorem buildRow_ids_orders (isBike : Bool) (i : Nat) (cols : List String)
    (doc : WorkoutDocument) (h : buildRow isBike i cols = some doc) :
    ∃ n, idsOf doc.workoutSteps = List.range' 1 n ∧
      ordersOf doc.workoutSteps = List.range' 1 n := by
  by_cases hlen : cols.length < 4
  · simp [buildRow, hlen] at h
  · rw [buildRow_eq isBike i cols hlen] at h
    obtain rfl := Option.some.inj h
    obtain ⟨n, e1, e2, e3, e4⟩ := segmentPhase_inv isBike cols
    refine ⟨n + 1, ?_, ?_⟩
    · simp only [idsOf_append, idsOf, e3, mkCooldownStep, e1]
      simpa [Nat.add_comm] using range'_snoc 1 n
    · simp only [ordersOf_append, ordersOf, e4, mkCooldownStep, e2]
      simpa [Nat.add_comm] using range'_snoc 1 n

theorem pipeline_doc_of_mem (csvText : String) (docs : List WorkoutDocument)
    (doc : WorkoutDocument) (hok : createWorkoutsFromCSVText csvText = Except.ok docs)
    (hmem : doc ∈ docs) :
    ∃ isBike i cols, buildRow isBike i cols = some doc := by
  unfold createWorkoutsFromCSVText at hok
  cases hcl : cleanLines csvText with
  | nil =>
    rw [hcl] at hok
    simp only [Except.ok.injEq] at hok
    subst hok
    simp at hmem
  | cons l0 rest =>
    rw [hcl] at hok
    simp only at hok
    cases hidx : (l0 :: rest)[if isHeaderLine l0 then 1 else 0]? with
    | none => rw [hidx] at hok; exact absurd hok (by simp)
    | some l =>
      rw [hidx] at hok
      simp only [Except.ok.injEq] at hok
      subst hok
      obtain ⟨p, -, hp⟩ := List.mem_filterMap.mp hmem
      exact ⟨isBikeMarkerLine l, p.1, parseCSVLine p.2, hp⟩

/-- C1: every document the pipeline produces has a step tree whose
depth-first id listing is exactly `1, …, n` (a gap-free, duplicate-free,
strictly increasing assignment in creation order, repeat-group children
included) and whose step-order listing in emission order is the same
gap-free sequence starting at 1; both counters restart at 1 for every
row, so no row's ids or orders depend on any other row. -/
theorem claim_C1_ids_orders_gapfree (csvText : String) (docs : List WorkoutDocument)
    (doc : WorkoutDocument) (hok : createWorkoutsFromCSVText csvText = Except.ok docs)
    (hmem : doc ∈ docs) :
    ∃ n, idsOf doc.workoutSteps = List.range' 1 n ∧
      ordersOf doc.workoutSteps = List.range' 1 n := by
  obtain ⟨isBike, i, cols, h⟩ := pipeline_doc_of_mem csvText docs doc hok hmem
  exact buildRow_ids_orders isBike i cols doc h

/-- A concrete document built from one row with a warmup, one repeat
segment and a cooldown. -/
def sampleRunDoc : WorkoutDocument :=
  (buildRow false 0 (parseCSVLine "W;1;60;0;Run;120;30;2")).getD default

theorem claim_C1_witness :
    ∃ n, idsOf sampleRunDoc.workoutSteps = List.range' 1 n ∧
      ordersOf sampleRunDoc.workoutSteps = List.range' 1 n :=
  claim_C1_ids_orders_gapfree "W;1;60;0;Run;120;30;2" [sampleRunDoc] sampleRunDoc (by rfl)
    (List.mem_singleton.mpr rfl)

/-- C2: for a segment whose parsed `repeats` is positive, the segment
loop appends exactly one repeat group built from the parsed fields; the
group's own id/order are the counter values allocated before its
children's (counters advance by 3); its children are exactly the
interval child then the recovery child; its `childStepId` equals the
interval child's id; the recovery child's id is the interval child's id
plus one; and its iteration count is the parsed `repeats`. -/
theorem claim_C2_repeat_group_structure (isBike : Bool) (cols : List String)
    (st : BuildState) (s : Nat) (nm : String) (dur pause reps : Int)
    (hc : 4 + s * 4 + 3 < cols.length)
    (hnm : nm = (if cols.getD (4 + s * 4) "" = "" then "Step" ++ toString (s + 1)
      else cols.getD (4 + s * 4) ""))
    (hdur : dur = parseIntOrZero (cols.getD (4 + s * 4 + 1) ""))
    (hpause : pause = parseIntOrZero (cols.getD (4 + s * 4 + 2) ""))
    (hreps : reps = parseIntOrZero (cols.getD (4 + s * 4 + 3) ""))
    (hr : 0 < reps) :
    processSegment isBike cols st s =
      { stepId := st.stepId + 3, stepOrder := st.stepOrder + 3,
        steps := st.steps ++
          [StepNode.group (mkRepeatGroup isBike nm dur pause reps st.stepId st.stepOrder)],
        total := st.total + reps * (dur + (if 0 < pause then pause else 0)) } ∧
    (mkRepeatGroup isBike nm dur pause reps st.stepId st.stepOrder).workoutSteps =
      [mkIntervalChild isBike nm dur (st.stepId + 1) (st.stepOrder + 1),
       mkRecoveryChild isBike pause (st.stepId + 1) (st.stepId + 2) (st.stepOrder + 2)] ∧
    (mkRepeatGroup isBike nm dur pause reps st.stepId st.stepOrder).stepId = st.stepId ∧
    (mkRepeatGroup isBike nm dur pause reps st.stepId st.stepOrder).stepOrder = st.stepOrder ∧
    (mkIntervalChild isBike nm dur (st.stepId + 1) (st.stepOrder + 1)).stepId = st.stepId + 1 ∧
    (mkIntervalChild isBike nm dur (st.stepId + 1) (st.stepOrder + 1)).stepOrder
      = st.stepOrder + 1 ∧
    (mkRecoveryChild isBike pause (st.stepId + 1) (st.stepId + 2) (st.stepOrder + 2)).stepId
      = (mkIntervalChild isBike nm dur (st.stepId + 1) (st.stepOrder + 1)).stepId + 1 ∧
    (mkRecoveryChild isBike pause (st.stepId + 1) (st.stepId + 2) (st.stepOrder + 2)).stepOrder
      = (mkIntervalChild isBike nm dur (st.stepId + 1) (st.stepOrder + 1)).stepOrder + 1 ∧
    (mkRepeatGroup isBike nm dur pause reps st.stepId st.stepOrder).childStepId
      = some (mkIntervalChild isBike nm dur (st.stepId + 1) (st.stepOrder + 1)).stepId ∧
    (mkIntervalChild isBike nm dur (st.stepId + 1) (st.stepOrder + 1)).stepType
      = ⟨3, "interval", 3⟩ ∧
    (mkRecoveryChild isBike pause (st.stepId + 1) (st.stepId + 2) (st.stepOrder + 2)).stepType
      = ⟨4, "recovery", 4⟩ ∧
    (mkRepeatGroup isBike nm dur pause reps st.stepId st.stepOrder).numberOfIterations = reps ∧
    (mkRepeatGroup isBike nm dur pause reps st.stepId st.stepOrder).stepId
      < (mkIntervalChild isBike nm dur (st.stepId + 1) (st.stepOrder + 1)).stepId := by
  subst hnm hdur hpause hreps
  have hc' : ¬ 4 + s * 4 + 3 ≥ cols.length := by omega
  have hr' : 0 < parseIntOrZero ((cols[4 + s * 4 + 3]?).getD "") := by
    simpa [List.getD] using hr
  refine ⟨?_, ?_, ?_, ?_, ?_, ?_, ?_, ?_, ?_, ?_, ?_, ?_, ?_⟩ <;>
    simp [processSegment, hc', hr', mkRepeatGroup, mkIntervalChild, mkRecoveryChild, List.getD]

theorem claim_C2_witness :
    processSegment false (parseCSVLine "W;1;60;0;Run;120;30;2") ⟨2, 2, [], 60⟩ 0 =
      { stepId := 5, stepOrder := 5,
        steps := [StepNode.group (mkRepeatGroup false "Run" 120 30 2 2 2)],
        total := 360 } ∧
    (mkRepeatGroup false "Run" 120 30 2 2 2).childStepId = some 3 ∧
    (mkRepeatGroup false "Run" 120 30 2 2 2).numberOfIterations = 2 := by
  have h := claim_C2_repeat_group_structure false (parseCSVLine "W;1;60;0;Run;120;30;2")
    ⟨2, 2, [], 60⟩ 0 "Run" 120 30 2 (by decide) (by decide) (by decide) (by decide)
    (by decide) (by decide)
  obtain ⟨h1, h2, h3, h4, h5, h6, h7, h8, h9, h10, h11, h12, h13⟩ := h
  exact ⟨by rw [h1]; rfl, h9, h12⟩

/-- C3: the recovery child of a repeat group carries a time end condition
with value `pauseSec` when the segment's parsed `pauseSec` is positive,
and a lap-button end condition with value 0 when `pauseSec = 0`; and
every repeat group's recovery child is built with the group's own
`pauseSec` (children are interval-then-recovery). -/
theorem claim_C3_recovery_end_condition (isBike : Bool) (pauseSec : Int)
    (intervalId sid sord : Nat) :
    ((0 < pauseSec →
        (mkRecoveryChild isBike pauseSec intervalId sid sord).endCondition = timeCondition ∧
        (mkRecoveryChild isBike pauseSec intervalId sid sord).endConditionValue = pauseSec) ∧
      (pauseSec = 0 →
        (mkRecoveryChild isBike pauseSec intervalId sid sord).endCondition = lapButtonCondition ∧
        (mkRecoveryChild isBike pauseSec intervalId sid sord).endConditionValue = 0)) ∧
    ∀ (nm : String) (dur reps : Int) (gsid gsord : Nat),
      (mkRepeatGroup isBike nm dur pauseSec reps gsid gsord).workoutSteps =
        [mkIntervalChild isBike nm dur (gsid + 1) (gsord + 1),
         mkRecoveryChild isBike pauseSec (gsid + 1) (gsid + 2) (gsord + 2)] := by
  refine ⟨⟨fun hp => ?_, fun hp => ?_⟩, fun nm dur reps gsid gsord => ?_⟩
  · simp [mkRecoveryChild, hp]
  · simp [mkRecoveryChild, hp]
  · simp [mkRepeatGroup, mkIntervalChild]

theorem claim_C3_witness :
    (mkRecoveryChild false 30 2 3 3).endCondition = timeCondition ∧
    (mkRecoveryChild false 30 2 3 3).endConditionValue = 30 ∧
    (mkRecoveryChild false 0 2 3 3).endCondition = lapButtonCondition ∧
    (mkRecoveryChild false 0 2 3 3).endConditionValue = 0 := by
  have h1 := (claim_C3_recovery_end_condition false 30 2 3 3).1.1 (by decide)
  have h2 := (claim_C3_recovery_end_condition false 0 2 3 3).1.2 rfl
  exact ⟨h1.1, h1.2, h2.1, h2.2⟩

/-- C5: every converted row's step list ends with a cooldown step and
contains exactly one cooldown step in the whole tree, regardless of
`cooldownSec`; a positive `cooldownSec` gives a time end condition with
that value, `cooldownSec = 0` gives a lap-button end condition with
value 0, and that lap-button cooldown contributes exactly 0 seconds to
the duration estimate. -/
theorem claim_C5_cooldown_last_step (isBike : Bool) (i : Nat) (cols : List String)
    (doc : WorkoutDocument) (h : buildRow isBike i cols = some doc) :
    ∃ pre c, doc.workoutSteps = pre ++ [StepNode.exec c] ∧
      c.stepType = ⟨2, "cooldown", 2⟩ ∧
      cooldownCount doc.workoutSteps = 1 ∧
      (0 < parseIntOrZero (cols.getD 3 "") →
        c.endCondition = timeCondition ∧
        c.endConditionValue = parseIntOrZero (cols.getD 3 "")) ∧
      (parseIntOrZero (cols.getD 3 "") = 0 →
        c.endCondition = lapButtonCooldownCondition ∧ c.endConditionValue = 0 ∧
        doc.estimatedDurationInSecs = (segmentPhase isBike cols).total) := by
  by_cases hlen : cols.length < 4
  · simp [buildRow, hlen] at h
  · rw [buildRow_eq isBike i cols hlen] at h
    obtain rfl := Option.some.inj h
    refine ⟨(segmentPhase isBike cols).steps,
      mkCooldownStep isBike (parseIntOrZero (cols.getD 3 ""))
        (segmentPhase isBike cols).stepId (segmentPhase isBike cols).stepOrder,
      rfl, rfl, ?_, fun hpos => ?_, fun hz => ?_⟩
    · simp [cooldownCount_append, segmentPhase_cooldownCount, cooldownCount, mkCooldownStep]
    · have hpos' : 0 < parseIntOrZero ((cols[3]?).getD "") := by simpa [List.getD] using hpos
      simp [mkCooldownStep, hpos', List.getD]
    · have hz' : parseIntOrZero ((cols[3]?).getD "") = 0 := by simpa [List.getD] using hz
      simp [mkCooldownStep, hz', List.getD]

theorem claim_C5_witness :
    ∃ pre c,
      sampleRunDoc.workoutSteps = pre ++ [StepNode.exec c] ∧
      c.stepType = ⟨2, "cooldown", 2⟩ ∧
      cooldownCount sampleRunDoc.workoutSteps = 1 ∧
      (0 < parseIntOrZero ((parseCSVLine "W;1;60;0;Run;120;30;2").getD 3 "") →
        c.endCondition = timeCondition ∧
        c.endConditionValue = parseIntOrZero ((parseCSVLine "W;1;60;0;Run;120;30;2").getD 3 "")) ∧
      (parseIntOrZero ((parseCSVLine "W;1;60;0;Run;120;30;2").getD 3 "") = 0 →
        c.endCondition = lapButtonCooldownCondition ∧ c.endConditionValue = 0 ∧
        sampleRunDoc.estimatedDurationInSecs
          = (segmentPhase false (parseCSVLine "W;1;60;0;Run;120;30;2")).total) :=
  claim_C5_cooldown_last_step false 0 (parseCSVLine "W;1;60;0;Run;120;30;2") sampleRunDoc
    (by rfl)

/-- The estimated-duration formula exactly as claim C4 states it: warmup
contribution, plus the per-segment contributions, plus the cooldown
counted only when `cooldownSec > 0`. -/
def claimedDuration (cols : List String) : Int :=
  (if 0 < parseIntOrZero (cols.getD 2 "") then parseIntOrZero (cols.getD 2 "") else 0)
    + ((List.range (parseIntOrZero (cols.getD 1 "")).toNat).map (segContribution cols)).sum
    + (if 0 < parseIntOrZero (cols.getD 3 "") then parseIntOrZero (cols.getD 3 "") else 0)

/-- A row whose cooldown field is negative: the code adds the negative
cooldown seconds to the estimate (src line 299), the claim's formula
counts 0 for a non-positive cooldown. -/
def negCooldownDoc : WorkoutDocument :=
  (buildRow false 0 (parseCSVLine "W;0;0;-100")).getD default

/-- C4 counterexample: a row with `cooldownSec = -100` converts to a
document whose estimated duration is `-100`, while the claim's formula
(cooldown counted only if positive) gives `0`. -/
theorem claim_C4_counterexample :
    buildRow false 0 (parseCSVLine "W;0;0;-100") = some negCooldownDoc ∧
    negCooldownDoc.estimatedDurationInSecs = -100 ∧
    claimedDuration (parseCSVLine "W;0;0;-100") = 0 ∧
    negCooldownDoc.estimatedDurationInSecs ≠ claimedDuration (parseCSVLine "W;0;0;-100") := by
  exact ⟨by rfl, by rfl, by rfl, by decide⟩

/-- C4 (amended): for every converted row the estimated duration equals
the warmup contribution (counted only if positive) plus the claim's
per-segment sum, plus `cooldownSec` added unconditionally (so a
lap-button cooldown from `cooldownSec = 0` contributes 0, but the
"counted only if `cooldownSec > 0`" clause of the claim only holds when
`cooldownSec ≥ 0`); the estimated distance is that duration times the
sport-mode default speed, 2.94 m/s for running and 6.94 m/s for
cycling, which is also the document's `avgTrainingSpeed`. -/
theorem claim_C4_amended_estimates (isBike : Bool) (i : Nat) (cols : List String)
    (doc : WorkoutDocument) (h : buildRow isBike i cols = some doc) :
    doc.estimatedDurationInSecs =
      (if 0 < parseIntOrZero (cols.getD 2 "") then parseIntOrZero (cols.getD 2 "") else 0)
        + ((List.range (parseIntOrZero (cols.getD 1 "")).toNat).map (segContribution cols)).sum
        + parseIntOrZero (cols.getD 3 "") ∧
    doc.estimatedDistanceInMeters =
      (doc.estimatedDurationInSecs : ℚ) * (if isBike then 694 / 100 else 294 / 100) ∧
    doc.avgTrainingSpeed = (if isBike then 694 / 100 else 294 / 100) ∧
    (0 ≤ parseIntOrZero (cols.getD 3 "") →
      (doc.estimatedDurationInSecs = claimedDuration cols ↔
        (parseIntOrZero (cols.getD 3 "") = 0 ∨ 0 < parseIntOrZero (cols.getD 3 "")))) := by
  by_cases hlen : cols.length < 4
  · simp [buildRow, hlen] at h
  · rw [buildRow_eq isBike i cols hlen] at h
    obtain rfl := Option.some.inj h
    refine ⟨?_, ?_, ?_, fun hnn => ?_⟩
    · simp only [segmentPhase_total]
    · cases isBike <;>
        simp [DEFAULT_SPEED_RUN_MPS, DEFAULT_SPEED_BIKE_MPS]
    · cases isBike <;>
        simp [DEFAULT_SPEED_RUN_MPS, DEFAULT_SPEED_BIKE_MPS]
    · simp only [segmentPhase_total, claimedDuration]
      constructor
      · intro he
        omega
      · intro hc
        rcases hc with hz | hp
        · rw [hz]; simp
        · have hp' : 0 < parseIntOrZero ((cols[3]?).getD "") := by simpa [List.getD] using hp
          simp [hp']

theorem claim_C4_witness :
    sampleRunDoc.estimatedDurationInSecs =
      (if 0 < parseIntOrZero ((parseCSVLine "W;1;60;0;Run;120;30;2").getD 2 "")
        then parseIntOrZero ((parseCSVLine "W;1;60;0;Run;120;30;2").getD 2 "") else 0)
        + ((List.range (parseIntOrZero ((parseCSVLine "W;1;60;0;Run;120;30;2").getD 1 "")).toNat).map
            (segContribution (parseCSVLine "W;1;60;0;Run;120;30;2"))).sum
        + parseIntOrZero ((parseCSVLine "W;1;60;0;Run;120;30;2").getD 3 "") ∧
    sampleRunDoc.estimatedDistanceInMeters =
      (sampleRunDoc.estimatedDurationInSecs : ℚ) * (if false then 694 / 100 else 294 / 100) ∧
    sampleRunDoc.avgTrainingSpeed = (if false then 694 / 100 else 294 / 100) ∧
    (0 ≤ parseIntOrZero ((parseCSVLine "W;1;60;0;Run;120;30;2").getD 3 "") →
      (sampleRunDoc.estimatedDurationInSecs
          = claimedDuration (parseCSVLine "W;1;60;0;Run;120;30;2") ↔
        (parseIntOrZero ((parseCSVLine "W;1;60;0;Run;120;30;2").getD 3 "") = 0 ∨
          0 < parseIntOrZero ((parseCSVLine "W;1;60;0;Run;120;30;2").getD 3 "")))) :=
  claim_C4_amended_estimates false 0 (parseCSVLine "W;1;60;0;Run;120;30;2") sampleRunDoc
    (by rfl)

/-- The header condition as claim C7 states it, over the lowercased
fields: first field contains "name" and some field equals "segments" or
"abschnitte". -/
def claimedHeader (cols : List String) : Prop :=
  strIncludes (cols.getD 0 "") "name" = true ∧
    (cols.contains "segments" = true ∨ cols.contains "abschnitte" = true)

/-- The document the code actually builds from the line
`Name;Segments;0;0` when it fails to recognize it as a header. -/
def headerCounterDoc : WorkoutDocument :=
  (buildRow false 0 (parseCSVLine "Name;Segments;0;0")).getD default

/-- C7 counterexample: the line `Name;Segments;0;0` satisfies the
claim's header condition (first field contains "name", a field equals
"segments") but the code does not treat it as a header — it is processed
as a data row and yields a document named "Name". -/
theorem claim_C7_counterexample :
    claimedHeader ((parseCSVLine "Name;Segments;0;0").map strToLower) ∧
    isHeaderLine "Name;Segments;0;0" = false ∧
    createWorkoutsFromCSVText "Name;Segments;0;0" = Except.ok [headerCounterDoc] ∧
    headerCounterDoc.workoutName = "Name" := by
  exact ⟨⟨by rfl, Or.inl (by rfl)⟩, by rfl, by rfl, by rfl⟩

/-- C7 (amended): the first line is treated as a header (start index
advanced by one) iff its first lowercased field contains "name" and some
lowercased field equals "abschnitte" (the "segments" spelling is NOT
accepted); then the line at the resulting start index is treated as a
sport-mode marker — cycling mode, start index advanced once more — iff
its first lowercased field contains "bike", and otherwise the mode is
running with the index unchanged; the data rows are exactly the
remaining indexed lines. -/
theorem claim_C7_amended_header_marker (csvText : String) (l0 : String) (rest : List String)
    (hcl : cleanLines csvText = l0 :: rest) (l : String)
    (hl : (l0 :: rest)[if isHeaderLine l0 then 1 else 0]? = some l) :
    createWorkoutsFromCSVText csvText =
      Except.ok (processRowsEnum (isBikeMarkerLine l)
        ((l0 :: rest).enum.drop
          ((if isHeaderLine l0 then 1 else 0) + (if isBikeMarkerLine l then 1 else 0)))) ∧
    isHeaderLine l0 =
      (strIncludes (((parseCSVLine l0).map strToLower).getD 0 "") "name"
        && ((parseCSVLine l0).map strToLower).contains "abschnitte") ∧
    isBikeMarkerLine l = strIncludes (((parseCSVLine l).map strToLower).getD 0 "") "bike" := by
  refine ⟨?_, rfl, rfl⟩
  unfold createWorkoutsFromCSVText
  rw [hcl]
  simp only [hl]
  cases hb : isBikeMarkerLine l <;> simp [hb, Nat.add_comm]

theorem claim_C7_witness :
    createWorkoutsFromCSVText "Name;Abschnitte\nBike\nW;0;0;0" =
      Except.ok (processRowsEnum (isBikeMarkerLine "Bike")
        ((["Name;Abschnitte", "Bike", "W;0;0;0"] : List String).enum.drop
          ((if isHeaderLine "Name;Abschnitte" then 1 else 0)
            + (if isBikeMarkerLine "Bike" then 1 else 0)))) ∧
    isHeaderLine "Name;Abschnitte" =
      (strIncludes (((parseCSVLine "Name;Abschnitte").map strToLower).getD 0 "") "name"
        && ((parseCSVLine "Name;Abschnitte").map strToLower).contains "abschnitte") ∧
    isBikeMarkerLine "Bike"
      = strIncludes (((parseCSVLine "Bike").map strToLower).getD 0 "") "bike" :=
  claim_C7_amended_header_marker "Name;Abschnitte\nBike\nW;0;0;0" "Name;Abschnitte"
    ["Bike", "W;0;0;0"] (by rfl) "Bike" (by rfl)

/-- The document the code builds from the semicolon rendition of the
README's example row. -/
def morningRunDoc : WorkoutDocument :=
  (buildRow false 0 (parseCSVLine "MorningRun;1;300;300;Zone5;1200;0;0")).getD default

/-- C8: the README's comma-separated example row is NOT converted by the
code — the tokenizer splits on `;`, so the whole row becomes a single
field, fails the 4-column minimum, and yields no document — whereas the
semicolon rendition of the very same row yields exactly the step tree,
duration (1800 s) and distance (5292 m) the claim describes. -/
theorem claim_C8_comma_row_rejected :
    createWorkoutsFromCSVText "MorningRun,1,300,300,Zone5,1200,0,0" = Except.ok [] ∧
    parseCSVLine "MorningRun,1,300,300,Zone5,1200,0,0"
      = ["MorningRun,1,300,300,Zone5,1200,0,0"] ∧
    buildRow false 0 (parseCSVLine "MorningRun,1,300,300,Zone5,1200,0,0") = none ∧
    createWorkoutsFromCSVText "MorningRun;1;300;300;Zone5;1200;0;0"
      = Except.ok [morningRunDoc] ∧
    morningRunDoc.workoutName = "MorningRun" ∧
    morningRunDoc.workoutSteps =
      [StepNode.exec (mkWarmupStep false 300 1 1),
       StepNode.exec (mkSteadyStep false "Zone5" 1200 2 2),
       StepNode.exec (mkCooldownStep false 300 3 3)] ∧
    morningRunDoc.estimatedDurationInSecs = 1800 ∧
    morningRunDoc.estimatedDistanceInMeters = 5292 ∧
    (buildTargetForStep "Zone5" false).targetType = noTargetType := by
  refine ⟨by rfl, by rfl, by rfl, by rfl, by rfl, ?_, by rfl, ?_, by rfl⟩
  · show morningRunDoc.workoutSteps = _
    rfl
  · have h : morningRunDoc.estimatedDistanceInMeters
        = ((1800 : Int) : ℚ) * DEFAULT_SPEED_RUN_MPS := rfl
    rw [h]
    norm_num [DEFAULT_SPEED_RUN_MPS]

/-- C9: a tokenized data row with fewer than 4 fields yields no
document; and row processing is per-row isolated — a bad row in the
middle contributes nothing while all other rows are processed exactly as
they would be on their own (splitting over any decomposition of the row
list). -/
theorem claim_C9_row_isolation :
    (∀ (isBike : Bool) (i : Nat) (cols : List String),
      cols.length < 4 → buildRow isBike i cols = none) ∧
    (∀ (isBike : Bool) (xs ys : List (Nat × String)) (p : Nat × String),
      (parseCSVLine p.2).length < 4 →
      processRowsEnum isBike (xs ++ p :: ys)
        = processRowsEnum isBike xs ++ processRowsEnum isBike ys) ∧
    (∀ (isBike : Bool) (xs ys : List (Nat × String)),
      processRowsEnum isBike (xs ++ ys)
        = processRowsEnum isBike xs ++ processRowsEnum isBike ys) := by
  have h1 : ∀ (isBike : Bool) (i : Nat) (cols : List String),
      cols.length < 4 → buildRow isBike i cols = none := by
    intro isBike i cols hlen
    simp [buildRow, hlen]
  refine ⟨h1, ?_, ?_⟩
  · intro isBike xs ys p hp
    simp [processRowsEnum, List.filterMap_append, List.filterMap_cons, h1 isBike p.1 _ hp]
  · intro isBike xs ys
    simp [processRowsEnum, List.filterMap_append]

/-- The document built from the valid row following a bad row. -/
def afterBadRowDoc : WorkoutDocument :=
  (buildRow false 1 (parseCSVLine "W;0;0;0")).getD default

theorem claim_C9_witness :
    buildRow false 0 ["a", "b", "c"] = none ∧
    processRowsEnum false [(0, "Bad"), (1, "W;0;0;0")]
      = processRowsEnum false [] ++ processRowsEnum false [(1, "W;0;0;0")] ∧
    processRowsEnum false [(0, "Bad"), (1, "W;0;0;0")] = [afterBadRowDoc] := by
  refine ⟨claim_C9_row_isolation.1 false 0 ["a", "b", "c"] (by decide),
    claim_C9_row_isolation.2.1 false [] [(1, "W;0;0;0")] (0, "Bad") (by decide), by rfl⟩

/-- C10: for a non-empty input whose only non-empty line is a header row
(first field containing "name", a field equal to "abschnitte"), the
sport-mode-marker check reads the line list past its end: the lookup at
the advanced start index returns `none` and the conversion aborts with
an error before processing any rows, instead of terminating normally
with zero data rows. -/
theorem claim_C10_header_only_aborts :
    cleanLines "Name;Abschnitte" = ["Name;Abschnitte"] ∧
    isHeaderLine "Name;Abschnitte" = true ∧
    (["Name;Abschnitte"] : List String)[(1 : Nat)]? = none ∧
    createWorkoutsFromCSVText "Name;Abschnitte"
      = Except.error "TypeError: undefined line at startIndex" := by
  exact ⟨by rfl, by rfl, by rfl, by rfl⟩

/-- The matching rule exactly as the claim words it: the (lowercased)
name contains "z" or "zone", followed by optional whitespace and a
single digit `d` in 1–9, as a whole word (non-word characters, or the
string ends, on both sides). -/
def SpecZoneMatch (name : String) (d : Nat) : Prop :=
  ∃ pre kw ws c post,
    (strToLower name).data = pre ++ kw ++ ws ++ c :: post ∧
    (kw = ['z'] ∨ kw = ['z', 'o', 'n', 'e']) ∧
    (∀ x ∈ ws, x.isWhitespace = true) ∧
    '1'.toNat ≤ c.toNat ∧ c.toNat ≤ '9'.toNat ∧ d = digitVal c ∧
    (∀ a, pre.getLast? = some a → isWordChar a = false) ∧
    (∀ b, post.head? = some b → isWordChar b = false)

theorem digit_not_ws (c : Char) (h1 : '1'.toNat ≤ c.toNat) : c.isWhitespace = false := by
  have hs : c ≠ ' ' := fun h => by subst h; exact absurd h1 (by decide)
  have ht : c ≠ '\t' := fun h => by subst h; exact absurd h1 (by decide)
  have hr : c ≠ '\r' := fun h => by subst h; exact absurd h1 (by decide)
  have hn : c ≠ '\n' := fun h => by subst h; exact absurd h1 (by decide)
  simp [Char.isWhitespace, hs, ht, hr, hn]

theorem dropWhile_append_of_all (p : Char → Bool) (ws t : List Char)
    (h : ∀ x ∈ ws, p x = true) : (ws ++ t).dropWhile p = t.dropWhile p := by
  induction ws with
  | nil => rfl
  | cons a l ih =>
    have ha : p a = true := h a (List.mem_cons_self a l)
    simp only [List.cons_append, List.dropWhile_cons, ha, if_true]
    exact ih (fun x hx => h x (List.mem_cons_of_mem a hx))

theorem rightBoundaryOk_iff (post : List Char) :
    rightBoundaryOk post = true ↔ (∀ b, post.head? = some b → isWordChar b = false) := by
  cases post <;> simp [rightBoundaryOk]

theorem leftBoundaryOk_iff (s : List Char) (q : Nat) :
    leftBoundaryOk s q = true ↔
      (∀ a, (s.take q).getLast? = some a → isWordChar a = false) := by
  unfold leftBoundaryOk
  cases h : (s.take q).getLast? <;> simp [h]

theorem matchAfterKw_sound (rest : List Char) (d : Nat) (h : matchAfterKw rest = some d) :
    ∃ ws c post, rest = ws ++ c :: post ∧ (∀ x ∈ ws, x.isWhitespace = true) ∧
      '1'.toNat ≤ c.toNat ∧ c.toNat ≤ '9'.toNat ∧ d = digitVal c ∧
      (∀ b, post.head? = some b → isWordChar b = false) := by
  unfold matchAfterKw at h
  cases hdw : rest.dropWhile Char.isWhitespace with
  | nil => rw [hdw] at h; exact absurd h (by simp [digitBoundary])
  | cons c post =>
    rw [hdw] at h
    by_cases hg : ('1'.toNat ≤ c.toNat ∧ c.toNat ≤ '9'.toNat) ∧ rightBoundaryOk post = true
    · refine ⟨rest.takeWhile Char.isWhitespace, c, post, ?_,
        fun x hx => List.mem_takeWhile_imp hx, hg.1.1, hg.1.2, ?_,
        (rightBoundaryOk_iff post).mp hg.2⟩
      · rw [← hdw]
        exact (List.takeWhile_append_dropWhile Char.isWhitespace rest).symm
      · rw [show digitBoundary (c :: post) = some (digitVal c) from by
          simp only [digitBoundary]; rw [if_pos hg]] at h
        exact (Option.some.inj h).symm
    · rw [show digitBoundary (c :: post) = none from by
        simp only [digitBoundary]; rw [if_neg hg]] at h
      exact absurd h (by simp)

theorem matchAfterKw_complete (ws : List Char) (c : Char) (post : List Char)
    (hws : ∀ x ∈ ws, x.isWhitespace = true)
    (h1 : '1'.toNat ≤ c.toNat) (h2 : c.toNat ≤ '9'.toNat)
    (hb : ∀ b, post.head? = some b → isWordChar b = false) :
    matchAfterKw (ws ++ c :: post) = some (digitVal c) := by
  unfold matchAfterKw
  rw [dropWhile_append_of_all Char.isWhitespace ws (c :: post) hws, List.dropWhile_cons,
    digit_not_ws c h1]
  simp only [Bool.false_eq_true, if_false, digitBoundary]
  rw [if_pos ⟨⟨h1, h2⟩, (rightBoundaryOk_iff post).mpr hb⟩]

theorem matchAfterKw_o (t : List Char) : matchAfterKw ('o' :: t) = none := by
  unfold matchAfterKw
  rw [List.dropWhile_cons]
  simp [show ('o').isWhitespace = false from rfl, digitBoundary,
    show ¬ ('o'.toNat ≤ '9'.toNat) from by decide]

theorem zoneTail_sound (r : List Char) (d : Nat) (h : zoneTail r = some d) :
    (∃ ws c post, r = ws ++ c :: post ∧ (∀ x ∈ ws, x.isWhitespace = true) ∧
      '1'.toNat ≤ c.toNat ∧ c.toNat ≤ '9'.toNat ∧ d = digitVal c ∧
      (∀ b, post.head? = some b → isWordChar b = false)) ∨
    (∃ r2, r = 'o' :: 'n' :: 'e' :: r2 ∧
      ∃ ws c post, r2 = ws ++ c :: post ∧ (∀ x ∈ ws, x.isWhitespace = true) ∧
        '1'.toNat ≤ c.toNat ∧ c.toNat ≤ '9'.toNat ∧ d = digitVal c ∧
        (∀ b, post.head? = some b → isWordChar b = false)) := by
  unfold zoneTail at h
  cases hma : matchAfterKw r with
  | some d0 =>
    rw [hma] at h
    simp only [Option.some.injEq] at h
    subst h
    exact Or.inl (matchAfterKw_sound r d0 hma)
  | none =>
    rw [hma] at h
    simp only at h
    rcases r with _ | ⟨c1, _ | ⟨c2, _ | ⟨c3, r2⟩⟩⟩
    · exact absurd h (by simp [zoneWord])
    · exact absurd h (by simp [zoneWord])
    · exact absurd h (by simp [zoneWord])
    · simp only [zoneWord] at h
      by_cases he : c1 = 'o' ∧ c2 = 'n' ∧ c3 = 'e'
      · obtain ⟨e1, e2, e3⟩ := he
        subst e1; subst e2; subst e3
        rw [if_pos ⟨rfl, rfl, rfl⟩] at h
        exact Or.inr ⟨r2, rfl, matchAfterKw_sound r2 d h⟩
      · rw [if_neg he] at h
        exact absurd h (by simp)

theorem matchZoneAt_sound (s : List Char) (q d : Nat) (h : matchZoneAt s q = some d) :
    ∃ pre kw ws c post, s = pre ++ kw ++ ws ++ c :: post ∧
      (kw = ['z'] ∨ kw = ['z', 'o', 'n', 'e']) ∧
      (∀ x ∈ ws, x.isWhitespace = true) ∧
      '1'.toNat ≤ c.toNat ∧ c.toNat ≤ '9'.toNat ∧ d = digitVal c ∧
      (∀ a, pre.getLast? = some a → isWordChar a = false) ∧
      (∀ b, post.head? = some b → isWordChar b = false) := by
  unfold matchZoneAt at h
  by_cases hlb : leftBoundaryOk s q = true
  · rw [if_pos hlb] at h
    cases hdr : s.drop q with
    | nil => rw [hdr] at h; exact absurd h (by simp [afterBoundary])
    | cons c0 r =>
      rw [hdr] at h
      simp only [afterBoundary] at h
      by_cases hz : c0 = 'z'
      · subst hz
        rw [if_pos rfl] at h
        have hpre := (leftBoundaryOk_iff s q).mp hlb
        rcases zoneTail_sound r d h with ⟨ws, c, post, hr, hws, h1, h2, hd, hpost⟩ |
          ⟨r2, hr, ws, c, post, hr2, hws, h1, h2, hd, hpost⟩
        · refine ⟨s.take q, ['z'], ws, c, post, ?_, Or.inl rfl, hws, h1, h2, hd,
            hpre, hpost⟩
          have hs2 : s = s.take q ++ 'z' :: (ws ++ c :: post) := by
            conv_lhs => rw [← List.take_append_drop q s]
            rw [hdr, hr]
          simpa using hs2
        · refine ⟨s.take q, ['z', 'o', 'n', 'e'], ws, c, post, ?_, Or.inr rfl, hws,
            h1, h2, hd, hpre, hpost⟩
          have hs2 : s = s.take q ++ 'z' :: 'o' :: 'n' :: 'e' :: (ws ++ c :: post) := by
            conv_lhs => rw [← List.take_append_drop q s]
            rw [hdr, hr, hr2]
          simpa using hs2
      · rw [if_neg hz] at h
        exact absurd h (by simp)
  · rw [if_neg hlb] at h
    exact absurd h (by simp)

theorem matchZoneAt_complete (pre kw ws : List Char) (c : Char) (post : List Char)
    (hkw : kw = ['z'] ∨ kw = ['z', 'o', 'n', 'e'])
    (hws : ∀ x ∈ ws, x.isWhitespace = true)
    (h1 : '1'.toNat ≤ c.toNat) (h2 : c.toNat ≤ '9'.toNat)
    (hpre : ∀ a, pre.getLast? = some a → isWordChar a = false) :
    ∀ (hpost : ∀ b, post.head? = some b → isWordChar b = false),
    matchZoneAt (pre ++ kw ++ ws ++ c :: post) pre.length = some (digitVal c) := by
  intro hpost
  have hsr : pre ++ kw ++ ws ++ c :: post = pre ++ (kw ++ (ws ++ c :: post)) := by
    simp [List.append_assoc]
  rw [hsr]
  have hlb : leftBoundaryOk (pre ++ (kw ++ (ws ++ c :: post))) pre.length = true := by
    rw [leftBoundaryOk_iff]
    intro a ha
    rw [List.take_left] at ha
    exact hpre a ha
  unfold matchZoneAt
  rw [if_pos hlb, List.drop_left]
  rcases hkw with h | h <;> subst h
  · have := matchAfterKw_complete ws c post hws h1 h2 hpost
    simp [afterBoundary, zoneTail, this]
  · have hz := matchAfterKw_complete ws c post hws h1 h2 hpost
    have ho := matchAfterKw_o ('n' :: 'e' :: (ws ++ c :: post))
    simp [afterBoundary, zoneTail, zoneWord, ho, hz]

theorem scanZoneFrom_sound (s : List Char) :
    ∀ (fuel p d : Nat), scanZoneFrom s p fuel = some d →
      ∃ q, p ≤ q ∧ matchZoneAt s q = some d := by
  intro fuel
  induction fuel with
  | zero => intro p d h; simp [scanZoneFrom] at h
  | succ n ih =>
    intro p d h
    unfold scanZoneFrom at h
    cases hm : matchZoneAt s p with
    | some d0 =>
      rw [hm] at h
      simp only [Option.some.injEq] at h
      subst h
      exact ⟨p, Nat.le_refl p, hm⟩
    | none =>
      rw [hm] at h
      simp only at h
      obtain ⟨q, hpq, hq⟩ := ih (p + 1) d h
      exact ⟨q, by omega, hq⟩

theorem scanZoneFrom_complete (s : List Char) (q d : Nat) (hq : matchZoneAt s q = some d) :
    ∀ (fuel p : Nat), p ≤ q → q < p + fuel →
      ∃ d', scanZoneFrom s p fuel = some d' := by
  intro fuel
  induction fuel with
  | zero => intro p h1 h2; omega
  | succ n ih =>
    intro p h1 h2
    unfold scanZoneFrom
    cases hm : matchZoneAt s p with
    | some d0 => exact ⟨d0, rfl⟩
    | none =>
      have hne : p ≠ q := fun he => by rw [he, hq] at hm; cases hm
      obtain ⟨d', hd'⟩ := ih (p + 1) (by omega) (by omega)
      exact ⟨d', hd'⟩

theorem gzn_sound (name : String) (d : Nat) (h : getZoneNumberFromName name = some d) :
    SpecZoneMatch name d := by
  unfold getZoneNumberFromName at h
  by_cases hn : name = ""
  · rw [if_pos hn] at h; exact absurd h (by simp)
  · rw [if_neg hn] at h
    obtain ⟨q, -, hq⟩ := scanZoneFrom_sound _ _ _ _ h
    exact matchZoneAt_sound _ _ _ hq

theorem gzn_complete (name : String) (d : Nat) (h : SpecZoneMatch name d) :
    ∃ d', getZoneNumberFromName name = some d' := by
  obtain ⟨pre, kw, ws, c, post, hs, hkw, hws, h1, h2, hd, hpre, hpost⟩ := h
  have hmatch : matchZoneAt (strToLower name).data pre.length = some (digitVal c) := by
    rw [hs]
    exact matchZoneAt_complete pre kw ws c post hkw hws h1 h2 hpre hpost
  have hlen : pre.length < (strToLower name).data.length := by
    have hl := congrArg List.length hs
    rcases hkw with hk | hk <;> subst hk <;>
      simp only [List.length_append, List.length_cons, List.length_nil,
        List.length_singleton] at hl <;> omega
  have hname : name ≠ "" := by
    intro he
    subst he
    have h0 : (strToLower "").data = [] := rfl
    rw [h0] at hlen
    simp at hlen
  unfold getZoneNumberFromName
  rw [if_neg hname]
  exact scanZoneFrom_complete _ _ _ hmatch _ 0 (Nat.zero_le _) (by omega)

/-- C6: the target resolver is a pure function of the name and the sport
mode. Outside cycling mode it always returns no-target (in particular
for "Easy Z1 Recovery" under running). In cycling mode it returns a
power-zone target exactly when the lowercased name contains "z" or
"zone" followed by optional whitespace and a single digit 1–9 as a whole
word (`SpecZoneMatch`), and the returned zone digit is one that matches;
otherwise it returns no-target. "Z1" resolves to power zone 1 and
"Zone3 Push" to power zone 3. -/
theorem claim_C6_target_resolver :
    (∀ name, buildTargetForStep name false = ⟨noTargetType, none⟩) ∧
    (∀ name d, buildTargetForStep name true = ⟨powerZoneType, some d⟩ →
      SpecZoneMatch name d) ∧
    (∀ name d, SpecZoneMatch name d →
      ∃ d', buildTargetForStep name true = ⟨powerZoneType, some d'⟩) ∧
    (∀ name, buildTargetForStep name true = ⟨noTargetType, none⟩ →
      ∀ d, ¬ SpecZoneMatch name d) ∧
    buildTargetForStep "Easy Z1 Recovery" false = ⟨noTargetType, none⟩ ∧
    buildTargetForStep "Z1" true = ⟨powerZoneType, some 1⟩ ∧
    buildTargetForStep "Zone3 Push" true = ⟨powerZoneType, some 3⟩ := by
  refine ⟨fun name => by simp [buildTargetForStep], ?_, ?_, ?_, by rfl, by rfl, by rfl⟩
  · intro name d h
    unfold buildTargetForStep at h
    cases hg : getZoneNumberFromName name with
    | none =>
      rw [hg] at h
      simp [noTargetType, powerZoneType] at h
    | some z =>
      rw [hg] at h
      simp only [Bool.not_true, Bool.false_eq_true, if_false, Target.mk.injEq,
        Option.some.injEq] at h
      rw [← h.2]
      exact gzn_sound name z hg
  · intro name d h
    obtain ⟨d', hd'⟩ := gzn_complete name d h
    exact ⟨d', by simp [buildTargetForStep, hd']⟩
  · intro name h d hm
    obtain ⟨d', hd'⟩ := gzn_complete name d hm
    simp [buildTargetForStep, hd', noTargetType, powerZoneType] at h

theorem claim_C6_witness :
    SpecZoneMatch "Z1" 1 ∧
    (∃ d', buildTargetForStep "Z 4" true = ⟨powerZoneType, some d'⟩) ∧
    (∀ d, ¬ SpecZoneMatch "Hello" d) := by
  refine ⟨claim_C6_target_resolver.2.1 "Z1" 1 (by rfl),
    claim_C6_target_resolver.2.2.1 "Z 4" 4
      ⟨[], ['z'], [' '], '4', [], rfl, Or.inl rfl, by decide, by decide, by decide,
        by decide, by simp, by simp⟩,
    claim_C6_target_resolver.2.2.2.1 "Hello" (by rfl)⟩

end GarminWB
